import Mathlib

/-!
Verification development for the transaction codec and execution subsystem of
the stablecoin-aptos scripts: the decode path (decodeTransaction.ts) and the
execute path (executeTransaction script).

Bytes are modelled as natural numbers (values below 256 in well-formed input);
a deserializer is a function consuming a prefix of a byte list and returning
the parsed value together with the remaining bytes, or an error. Primitive
readers and codecs that live in the @aptos-labs/ts-sdk dependency (absent from
this repository) are modelled from the spec, as marked in their doc comments;
everything else is translated from the repository sources.
-/

namespace StablecoinAptos

/-- Decidable equality for Except values, used to evaluate concrete runs. -/
instance [DecidableEq ε] [DecidableEq α] : DecidableEq (Except ε α)
  | .ok a, .ok b =>
    if h : a = b then .isTrue (by rw [h]) else .isFalse (by intro hc; cases hc; exact h rfl)
  | .error a, .error b =>
    if h : a = b then .isTrue (by rw [h]) else .isFalse (by intro hc; cases hc; exact h rfl)
  | .ok _, .error _ => .isFalse (by intro hc; cases hc)
  | .error _, .ok _ => .isFalse (by intro hc; cases hc)

/-- Error taxonomy of the decode path (spec section 7). The constructor
`typeErrorUndefinedDecoder` models the JavaScript TypeError raised when
`argumentDecoders[functionName][i]` is `undefined` and is invoked as a
function (decodeTransaction.ts line 91); the spec names an
ArgumentCountMismatch error, but no such error exists in the code. -/
inductive DecodeErr where
  | bufferUnderrun
  | malformedVarint
  | unsupportedPayloadType
  | unsupportedTransactionShape
  | typeErrorUndefinedDecoder
deriving Repr, DecidableEq

/-- Modelled from the spec (section 4.1, Binary Reader): read one byte,
failing on an exhausted buffer. The SDK Deserializer is not in src. -/
def readByte : List Nat → Except DecodeErr (Nat × List Nat)
  | [] => .error .bufferUnderrun
  | b :: rest => .ok (b, rest)

/-- Modelled from the spec (section 4.1): `readBytes(n)` fails if fewer than
`n` bytes remain; never silently truncates. -/
def readBytes : Nat → List Nat → Except DecodeErr (List Nat × List Nat)
  | 0, bs => .ok ([], bs)
  | _ + 1, [] => .error .bufferUnderrun
  | n + 1, b :: rest => (readBytes n rest).map (fun p => (b :: p.1, p.2))

/-- Little-endian value of a byte list. -/
def leValue : List Nat → Nat
  | [] => 0
  | b :: rest => b + 256 * leValue rest

/-- Modelled from the spec (section 4.1): fixed-width little-endian u64. -/
def readU64 (bs : List Nat) : Except DecodeErr (Nat × List Nat) :=
  (readBytes 8 bs).map (fun p => (leValue p.1, p.2))

/-- Modelled from the spec (section 4.1): ULEB128 accumulation loop, 7 data
bits per byte, high bit is the continuation flag; fails on a value beyond 32
bits or on a non-canonical trailing zero byte. -/
def readUleb128Aux : List Nat → Nat → Nat → Except DecodeErr (Nat × List Nat)
  | [], _, _ => .error .bufferUnderrun
  | b :: rest, shift, acc =>
    let acc2 := acc + b % 128 * 2 ^ shift
    if b < 128 then
      if 0 < shift ∧ b = 0 then .error .malformedVarint
      else if acc2 < 2 ^ 32 then .ok (acc2, rest)
      else .error .malformedVarint
    else readUleb128Aux rest (shift + 7) acc2

/-- Modelled from the spec (section 4.1): `readUleb128AsU32`. -/
def readUleb128AsU32 (bs : List Nat) : Except DecodeErr (Nat × List Nat) :=
  readUleb128Aux bs 0 0

/-- Modelled from the spec (glossary, BCS): canonical ULEB128 encoding of a
natural number, used to state the encode/decode round trip. -/
def ulebEncode (n : Nat) : List Nat :=
  if n < 128 then [n]
  else (128 + n % 128) :: ulebEncode (n / 128)
termination_by n
decreasing_by exact Nat.div_lt_self (by omega) (by omega)

/-- Modelled from the spec (section 4.2): decode exactly `n` elements in
order with the element decoder, threading the remaining bytes. -/
def decodeElems (dec : List Nat → Except DecodeErr (α × List Nat)) :
    Nat → List Nat → Except DecodeErr (List α × List Nat)
  | 0, bs => .ok ([], bs)
  | n + 1, bs =>
    match dec bs with
    | .error e => .error e
    | .ok (x, rest) =>
      match decodeElems dec n rest with
      | .error e => .error e
      | .ok (xs, rest2) => .ok (x :: xs, rest2)

/-- Modelled from the spec (section 4.2, Nested Vector Codec, the SDK
MoveVector.deserialize): read a ULEB128 length L, then decode L elements in
order; a zero length yields the empty list. -/
def decodeVector (dec : List Nat → Except DecodeErr (α × List Nat))
    (bs : List Nat) : Except DecodeErr (List α × List Nat) :=
  match readUleb128AsU32 bs with
  | .error e => .error e
  | .ok (len, rest) => decodeElems dec len rest

/-- Modelled from the spec: `MoveVector.deserialize(deserializer, U8)`, a
ULEB128 length followed by that many bytes. -/
def readByteVector (bs : List Nat) : Except DecodeErr (List Nat × List Nat) :=
  decodeVector readByte bs

/-- Modelled from the spec (glossary, BCS): length-prefixed encoding of a
byte string, the inverse of `readByteVector`. -/
def encodeBytes (b : List Nat) : List Nat :=
  ulebEncode b.length ++ b

/-- Modelled from the spec (glossary, BCS): ULEB128 count followed by the
encodings of the elements in order, the inverse of `decodeVector`. -/
def encodeVector (enc : α → List Nat) (xs : List α) : List Nat :=
  ulebEncode xs.length ++ (xs.map enc).flatten

/-- Lower-case hexadecimal digit of a value below 16. -/
def hexDigit (n : Nat) : Char :=
  if n < 10 then Char.ofNat (48 + n) else Char.ofNat (87 + n)

/-- Two-digit lower-case hexadecimal rendering of one byte. -/
def byteToHex (b : Nat) : String :=
  String.mk [hexDigit (b / 16 % 16), hexDigit (b % 16)]

/-- Hex rendering of a byte list with the 0x marker in front, as produced by
`Buffer.from(bytes).toString("hex")` with `0x` prepended
(decodeTransaction.ts, convertMoveVectorU8ToHex) and by `Hex.toString`. -/
def toHexString (bs : List Nat) : String :=
  "0x" ++ String.join (bs.map byteToHex)

/-- A decoded argument: either a single rendered string (address or hex
string) or a nested array of strings, as produced by the decoders in
decodeTransaction.ts. -/
inductive DecodedArg where
  | str (s : String)
  | strList (ss : List String)
deriving Repr, DecidableEq

/-- First upgradePackage decoder (decodeTransaction.ts lines 124-126):
`AccountAddress.deserialize` reads 32 fixed bytes (trailing bytes of the
argument are ignored) and renders them; the SDK rendering of an address is
modelled from the spec as the plain hex string of the 32 bytes. -/
def decodeAddressArg (arg : List Nat) : Except DecodeErr DecodedArg :=
  (readBytes 32 arg).map (fun p => .str (toHexString p.1))

/-- Second upgradePackage decoder (decodeTransaction.ts lines 129-132):
deserialize a `vector<u8>` and render it via convertMoveVectorU8ToHex. -/
def decodeVectorU8Arg (arg : List Nat) : Except DecodeErr DecodedArg :=
  (readByteVector arg).map (fun p => .str (toHexString p.1))

/-- TwoLevelMoveVector.deserialize (decodeTransaction.ts lines 147-159): read
a ULEB128 length, then that many `MoveVector<U8>` values in order. -/
def twoLevelDeserialize (arg : List Nat) :
    Except DecodeErr (List (List Nat) × List Nat) :=
  decodeVector readByteVector arg

/-- Third upgradePackage decoder (decodeTransaction.ts lines 135-141):
deserialize a `vector<vector<u8>>` and render each inner vector as hex. -/
def decodeVectorVectorU8Arg (arg : List Nat) : Except DecodeErr DecodedArg :=
  (twoLevelDeserialize arg).map (fun p => .strList (p.1.map toHexString))

/-- Ordered decoder list registered for upgradePackage
(decodeTransaction.ts lines 122-141). -/
def upgradePackageDecoders : List (List Nat → Except DecodeErr DecodedArg) :=
  [decodeAddressArg, decodeVectorU8Arg, decodeVectorVectorU8Arg]

/-- The argument decoder registry `argumentDecoders`
(decodeTransaction.ts lines 120-142): one registered function. -/
def argumentDecoders : List (String × List (List Nat → Except DecodeErr DecodedArg)) :=
  [("upgradePackage", upgradePackageDecoders)]

/-- Registry lookup, as `Object.keys(argumentDecoders).includes(functionName)`
followed by `argumentDecoders[functionName]`. -/
def lookupDecoders (fn : String) :
    Option (List (List Nat → Except DecodeErr DecodedArg)) :=
  (argumentDecoders.find? (fun p => p.1 == fn)).map (fun p => p.2)

/-- The registered-function branch of decodeTransaction.ts lines 90-92:
`txPayloadArguments.map((arg, i) => argumentDecoders[functionName][i](arg.value))`.
Each argument at position i is decoded with the decoder at position i; when i
is past the end of the decoder list, the indexing yields `undefined` and the
invocation raises a TypeError. When the arguments run out first, the mapping
simply stops: the surplus decoders are never consulted. -/
def applyDecoders :
    List (List Nat → Except DecodeErr DecodedArg) → List (List Nat) →
    Except DecodeErr (List DecodedArg)
  | _, [] => .ok []
  | [], _ :: _ => .error .typeErrorUndefinedDecoder
  | d :: ds, a :: rest =>
    match d a with
    | .error e => .error e
    | .ok v =>
      match applyDecoders ds rest with
      | .error e => .error e
      | .ok vs => .ok (v :: vs)

/-- Argument decoding of decodeTransaction.ts lines 78-93: when a function
name is supplied and present in the registry, apply its decoder list
positionally; otherwise return each raw argument as the hex string of its
bytes (`arg.bcsToHex().toString()`). -/
def decodedArgsFor (functionName : Option String) (rawArgs : List (List Nat)) :
    Except DecodeErr (List DecodedArg) :=
  match functionName with
  | none => .ok (rawArgs.map (fun a => .str (toHexString a)))
  | some fn =>
    match lookupDecoders fn with
    | some ds => applyDecoders ds rawArgs
    | none => .ok (rawArgs.map (fun a => .str (toHexString a)))

/-- Entry-function payload of a decoded transaction (spec section 3):
identifiers are kept as their UTF-8 bytes, type tags are modelled as bare
ULEB128 discriminants (the spec gives no byte format for type-tag
descriptors), and each raw argument is the undecoded byte string of one
value. -/
structure EntryFunctionPayload where
  moduleAddress : List Nat
  moduleName : List Nat
  functionName : List Nat
  typeTags : List Nat
  args : List (List Nat)
deriving Repr, DecidableEq

/-- A deserialized SimpleTransaction (spec section 3, RawTransactionHeader
plus EntryFunctionPayload plus optional fee payer address). -/
structure SimpleTransaction where
  sender : List Nat
  sequenceNumber : Nat
  payload : EntryFunctionPayload
  maxGasAmount : Nat
  gasUnitPrice : Nat
  expirationTimestampSecs : Nat
  chainId : Nat
  feePayer : Option (List Nat)
deriving Repr, DecidableEq

/-- Modelled from the spec (section 4.4, Transaction Envelope Codec; the SDK
SimpleTransaction.deserialize is not in src): sender (32 bytes), sequence
number, payload discriminant (entry function is tag 2; anything else fails
with UnsupportedPayloadType), module address, module name, function name,
type-tag descriptors, raw argument byte strings, max gas amount, gas unit
price, expiration timestamp, chain id, and an extension discriminant with
plain (0) and fee payer (1) supported and every other shape rejected. -/
def deserializeSimpleTransaction (bs : List Nat) :
    Except DecodeErr SimpleTransaction := do
  let (sender, r) ← readBytes 32 bs
  let (seqNum, r) ← readU64 r
  let (payloadTag, r) ← readUleb128AsU32 r
  if payloadTag ≠ 2 then throw .unsupportedPayloadType
  let (moduleAddress, r) ← readBytes 32 r
  let (moduleName, r) ← readByteVector r
  let (fnName, r) ← readByteVector r
  let (typeTags, r) ← decodeVector readUleb128AsU32 r
  let (args, r) ← decodeVector readByteVector r
  let (maxGas, r) ← readU64 r
  let (gasPrice, r) ← readU64 r
  let (expiration, r) ← readU64 r
  let (chainId, r) ← readByte r
  let (extTag, r) ← readUleb128AsU32 r
  let feePayer ←
    match extTag with
    | 0 => pure none
    | 1 => do
        let (fp, _) ← readBytes 32 r
        pure (some fp)
    | _ => throw .unsupportedTransactionShape
  pure
    { sender := sender
      sequenceNumber := seqNum
      payload :=
        { moduleAddress := moduleAddress
          moduleName := moduleName
          functionName := fnName
          typeTags := typeTags
          args := args }
      maxGasAmount := maxGas
      gasUnitPrice := gasPrice
      expirationTimestampSecs := expiration
      chainId := chainId
      feePayer := feePayer }

/-- Rendering of an identifier from its UTF-8 bytes. -/
def identifierToString (bs : List Nat) : String :=
  String.mk (bs.map Char.ofNat)

/-- The flat decoded record written by decodeTransaction.ts lines 95-110:
every header field rendered as a decimal string, the optional fee payer, the
fully qualified function, the rendered type arguments and the decoded
arguments. -/
structure DecodedTx where
  sender : String
  sequenceNumber : String
  maxGasAmount : String
  gasUnitPrice : String
  expirationTimestampSecs : String
  chainId : String
  feePayer : Option String
  payloadFunction : String
  payloadTypeArgs : List String
  payloadArgs : List DecodedArg
deriving Repr, DecidableEq

/-- One `fs.writeFileSync` effect: target path and the record written. -/
structure FileWrite where
  path : String
  content : DecodedTx
deriving Repr, DecidableEq

/-- Construction of the decoded record (decodeTransaction.ts lines 95-110)
from the deserialized transaction and the decoded arguments. -/
def buildDecodedTx (tx : SimpleTransaction) (args : List DecodedArg) : DecodedTx :=
  { sender := toHexString tx.sender
    sequenceNumber := toString tx.sequenceNumber
    maxGasAmount := toString tx.maxGasAmount
    gasUnitPrice := toString tx.gasUnitPrice
    expirationTimestampSecs := toString tx.expirationTimestampSecs
    chainId := toString tx.chainId
    feePayer := tx.feePayer.map toHexString
    payloadFunction :=
      toHexString tx.payload.moduleAddress ++ "::" ++
        identifierToString tx.payload.moduleName ++ "::" ++
        identifierToString tx.payload.functionName
    payloadTypeArgs := tx.payload.typeTags.map toString
    payloadArgs := args }

/-- Processing of an already deserialized transaction by decodeTransaction
(decodeTransaction.ts lines 77-117): decode the arguments, build the full
record, then perform the single output write. A failing argument decoder
aborts the call before any write. -/
def decodeTransactionTx (tx : SimpleTransaction) (output : String)
    (functionName : Option String) :
    List FileWrite × Except DecodeErr DecodedTx :=
  match decodedArgsFor functionName tx.payload.args with
  | .error e => ([], .error e)
  | .ok args =>
    let d := buildDecodedTx tx args
    ([{ path := output, content := d }], .ok d)

/-- The full decodeTransaction pipeline (decodeTransaction.ts lines 54-117):
deserialize the envelope, then decode and write. The first component lists
the file writes performed, in order; the second is the outcome. -/
def decodeTransaction (txBytes : List Nat) (output : String)
    (functionName : Option String) :
    List FileWrite × Except DecodeErr DecodedTx :=
  match deserializeSimpleTransaction txBytes with
  | .error e => ([], .error e)
  | .ok tx => decodeTransactionTx tx output functionName

/-- Modelled from the spec (section 3, SignerIdentity): the parsed form of
the public-key bytes. The executeTransaction script parses them with the SDK
(`MultiKey.deserialize` when the multi-sig flag is set,
`Ed25519PublicKey.deserialize` otherwise, neither in src); the variant
records which parse was used, so it carries the multi-sig flag. -/
inductive SignerIdentity where
  | singleKey (key : List Nat)
  | thresholdKey (memberKeys : List (List Nat)) (threshold : Nat)
deriving Repr, DecidableEq

/-- Modelled from the spec (section 4.5): the parsed form of the signature
bytes, a fixed-length signature in single mode and a sparse list of
(member index, signature) pairs in threshold mode; the byte-level parsing is
SDK code (`Ed25519Signature.deserialize`, `MultiKeySignature.deserialize`)
absent from src. -/
inductive SignatureInput where
  | single (sig : List Nat)
  | threshold (pairs : List (Nat × List Nat))
deriving Repr, DecidableEq

/-- The tagged Authenticator sum (spec section 3). -/
inductive Authenticator where
  | singleKeyAuth (key : List Nat) (sig : List Nat)
  | thresholdKeyAuth (memberKeys : List (List Nat)) (threshold : Nat)
      (pairs : List (Nat × List Nat))
deriving Repr, DecidableEq

/-- Error taxonomy of the execute path (spec section 7). -/
inductive ExecErr where
  | missingSignature
  | authenticatorLengthMismatch
  | signatureIndexOutOfRange
  | signaturesBelowThreshold
  | authenticatorModeMismatch
deriving Repr, DecidableEq

/-- Modelled from the spec (section 4.5, Authentication Builder): in single
mode a 32-byte verification key and 64-byte signature are required, failing
on a length mismatch; in threshold mode the build fails when any pair names a
member index out of range of the ordered member-key list, or when fewer
signatures are supplied than the declared threshold. The checks themselves
are SDK code absent from src. -/
def buildAuthenticator :
    SignerIdentity → SignatureInput → Except ExecErr Authenticator
  | .singleKey key, .single sig =>
    if key.length = 32 ∧ sig.length = 64 then .ok (.singleKeyAuth key sig)
    else .error .authenticatorLengthMismatch
  | .thresholdKey keys t, .threshold pairs =>
    if pairs.any (fun p => keys.length ≤ p.1) then
      .error .signatureIndexOutOfRange
    else if pairs.length < t then .error .signaturesBelowThreshold
    else .ok (.thresholdKeyAuth keys t pairs)
  | .singleKey _, .threshold _ => .error .authenticatorModeMismatch
  | .thresholdKey _ _, .single _ => .error .authenticatorModeMismatch

/-- Simulation outcome (spec section 3). -/
structure SimulationResult where
  success : Bool
  gasUsed : Nat
deriving Repr, DecidableEq

/-- Committed outcome (spec section 3), available only after inclusion. -/
structure CommittedResult where
  txHash : List Nat
  success : Bool
deriving Repr, DecidableEq

/-- ExecutionOutcome (spec section 3): simulation or committed result. -/
inductive ExecutionOutcome where
  | simulation (r : SimulationResult)
  | committed (r : CommittedResult)
deriving Repr, DecidableEq

/-- One network round trip issued through the Aptos client (spec section 6):
`simulate(transaction, publicKey)`, `submit(transaction, authenticator)` or
`waitForInclusion(hash)`. -/
inductive NetworkCall where
  | simulate (tx : SimpleTransaction) (pk : SignerIdentity)
  | submit (tx : SimpleTransaction) (auth : Authenticator)
  | waitForInclusion (txHash : List Nat)
deriving Repr, DecidableEq

/-- Modelled from the spec (section 6): the consumed network client, opaque
to this core, summarized by the responses it returns. -/
structure AptosClient where
  simulateResult : SimulationResult
  submitHash : List Nat
  waitResult : CommittedResult
deriving Repr, DecidableEq

/-- The executeTransaction script (src/unnamed/part_004 lines 58-136),
modelled after the input hex strings have been deserialized (the SDK parsing
of transaction, public key and signature bytes is not in src). The first
component is the ordered list of network calls issued; the second the
outcome. Dry run: issue one simulation request carrying only the signer
public key and return its result. Otherwise: fail with MissingSignature when
no signature was supplied, build the authenticator, submit once, then wait
for inclusion once and return the committed result. -/
def executeTransaction (client : AptosClient) (transaction : SimpleTransaction)
    (signerPublicKey : SignerIdentity) (signature : Option SignatureInput)
    (dryRun : Bool) : List NetworkCall × Except ExecErr ExecutionOutcome :=
  if dryRun then
    ([.simulate transaction signerPublicKey],
     .ok (.simulation client.simulateResult))
  else
    match signature with
    | none => ([], .error .missingSignature)
    | some sig =>
      match buildAuthenticator signerPublicKey sig with
      | .error e => ([], .error e)
      | .ok auth =>
        ([.submit transaction auth, .waitForInclusion client.submitHash],
         .ok (.committed client.waitResult))

/-- Truth value of an Except being a success. -/
def exceptIsOk : Except ε α → Bool
  | .ok _ => true
  | .error _ => false


/-- A small concrete transaction used by the evaluation witnesses. -/
def sampleTx : SimpleTransaction :=
  { sender := List.replicate 32 0
    sequenceNumber := 20
    payload :=
      { moduleAddress := List.replicate 32 1
        moduleName := [109]
        functionName := [102]
        typeTags := []
        args := [[7], [8, 9]] }
    maxGasAmount := 1000000
    gasUnitPrice := 500
    expirationTimestampSecs := 1700000000
    chainId := 4
    feePayer := none }

/-- A sample client response set used by the evaluation witnesses. -/
def sampleClient : AptosClient :=
  { simulateResult := { success := true, gasUsed := 7 }
    submitHash := [1, 2]
    waitResult := { txHash := [1, 2], success := true } }

/-- Decoding the canonical ULEB128 encoding of `n` from any position of the
accumulation loop recovers the accumulated value and leaves the rest of the
buffer untouched, provided the final value fits in 32 bits and a zero value
only occurs at the initial position (the canonicity condition). -/
theorem readUleb128Aux_ulebEncode (n : Nat) :
    ∀ (rest : List Nat) (shift acc : Nat),
      acc + n * 2 ^ shift < 2 ^ 32 → (n = 0 → shift = 0) →
      readUleb128Aux (ulebEncode n ++ rest) shift acc =
        .ok (acc + n * 2 ^ shift, rest) := by
  induction n using Nat.strong_induction_on with
  | _ n ih =>
    intro rest shift acc hval hshift
    by_cases h : n < 128
    · rw [ulebEncode, if_pos h]
      have hmod : n % 128 = n := Nat.mod_eq_of_lt h
      have hnz : ¬ (0 < shift ∧ n = 0) := by
        rintro ⟨hs, hn⟩
        have := hshift hn
        omega
      simp only [List.cons_append, List.nil_append, readUleb128Aux, hmod,
        if_pos h, if_neg hnz, if_pos hval]
      rfl
    · rw [ulebEncode, if_neg h]
      have hb : ¬ (128 + n % 128 < 128) := by omega
      have hmod : (128 + n % 128) % 128 = n % 128 := by omega
      have hdivlt : n / 128 < n := Nat.div_lt_self (by omega) (by omega)
      have hkey : acc + n % 128 * 2 ^ shift + n / 128 * 2 ^ (shift + 7) =
          acc + n * 2 ^ shift := by
        have hpow : 2 ^ (shift + 7) = 2 ^ shift * 128 := by
          rw [pow_add]; norm_num
        calc acc + n % 128 * 2 ^ shift + n / 128 * 2 ^ (shift + 7)
            = acc + (n % 128 + 128 * (n / 128)) * 2 ^ shift := by
              rw [hpow]; ring
          _ = acc + n * 2 ^ shift := by rw [Nat.mod_add_div]
      simp only [List.cons_append, readUleb128Aux, hmod, if_neg hb,
        List.append_eq]
      rw [ih (n / 128) hdivlt rest (shift + 7) (acc + n % 128 * 2 ^ shift)
        (by rw [hkey]; exact hval) (by intro h0; omega), hkey]

/-- Decoding the ULEB128 encoding of a value below 2 to the 32 recovers it. -/
theorem readUleb128AsU32_ulebEncode (n : Nat) (rest : List Nat)
    (h : n < 2 ^ 32) :
    readUleb128AsU32 (ulebEncode n ++ rest) = .ok (n, rest) := by
  have := readUleb128Aux_ulebEncode n rest 0 0 (by simpa using h)
    (fun _ => rfl)
  simpa using this

/-- Reading as many bytes as a prefix holds returns exactly that prefix. -/
theorem readBytes_exact (l : List Nat) :
    ∀ rest : List Nat, readBytes l.length (l ++ rest) = .ok (l, rest) := by
  induction l with
  | nil => intro rest; rfl
  | cons b l ih =>
    intro rest
    simp only [List.length_cons, List.cons_append, readBytes,
      List.append_eq, ih rest, Except.map]

/-- Decoding a count of single bytes consumes exactly that prefix. -/
theorem decodeElems_readByte (l : List Nat) :
    ∀ rest : List Nat,
      decodeElems readByte l.length (l ++ rest) = .ok (l, rest) := by
  induction l with
  | nil => intro rest; rfl
  | cons b l ih =>
    intro rest
    simp only [List.length_cons, List.cons_append, decodeElems, readByte,
      ih rest]

/-- Reading a length-prefixed byte string back from its encoding recovers it
and leaves the remaining buffer untouched. -/
theorem readByteVector_encodeBytes (b : List Nat) (rest : List Nat)
    (h : b.length < 2 ^ 32) :
    readByteVector (encodeBytes b ++ rest) = .ok (b, rest) := by
  simp only [readByteVector, decodeVector, encodeBytes, List.append_assoc,
    readUleb128AsU32_ulebEncode b.length (b ++ rest) h]
  exact decodeElems_readByte b rest

/-- Decoding a count of elements from the concatenation of their encodings
recovers them in order, whenever each element decodes from its encoding. -/
theorem decodeElems_flatten_map (enc : α → List Nat)
    (dec : List Nat → Except DecodeErr (α × List Nat)) (xs : List α) :
    ∀ rest : List Nat,
      (∀ x ∈ xs, ∀ r, dec (enc x ++ r) = .ok (x, r)) →
      decodeElems dec xs.length ((xs.map enc).flatten ++ rest) =
        .ok (xs, rest) := by
  induction xs with
  | nil => intro rest _; rfl
  | cons x xs ih =>
    intro rest h
    simp only [List.length_cons, List.map_cons, List.flatten_cons,
      List.append_assoc, decodeElems,
      h x (List.mem_cons_self x xs) ((xs.map enc).flatten ++ rest),
      ih rest (fun y hy r => h y (List.mem_cons_of_mem x hy) r)]

/-- The generic vector round trip: decoding the encoding of a list whose
length fits in 32 bits recovers the list, whenever each element decodes from
its own encoding. -/
theorem decodeVector_encodeVector (enc : α → List Nat)
    (dec : List Nat → Except DecodeErr (α × List Nat)) (xs : List α)
    (rest : List Nat) (hlen : xs.length < 2 ^ 32)
    (h : ∀ x ∈ xs, ∀ r, dec (enc x ++ r) = .ok (x, r)) :
    decodeVector dec (encodeVector enc xs ++ rest) = .ok (xs, rest) := by
  simp only [decodeVector, encodeVector, List.append_assoc,
    readUleb128AsU32_ulebEncode xs.length ((xs.map enc).flatten ++ rest) hlen]
  exact decodeElems_flatten_map enc dec xs rest h

/-- When the raw arguments outnumber the decoder list, applying the decoders
never succeeds: either an earlier decoder fails, or the mapping reaches a
position whose decoder lookup is `undefined` and the invocation raises a
TypeError. -/
theorem applyDecoders_err_of_more_args :
    ∀ (ds : List (List Nat → Except DecodeErr DecodedArg))
      (args : List (List Nat)), ds.length < args.length →
      exceptIsOk (applyDecoders ds args) = false := by
  intro ds args
  induction args generalizing ds with
  | nil => intro h; simp at h
  | cons a rest ih =>
    intro h
    cases ds with
    | nil => rfl
    | cons d ds =>
      simp only [applyDecoders]
      cases hda : d a with
      | error e => rfl
      | ok v =>
        cases hrec : applyDecoders ds rest with
        | error e => rfl
        | ok vs =>
          have hlen : ds.length < rest.length := by
            simp only [List.length_cons] at h; omega
          have hres := ih ds hlen
          rw [hrec] at hres
          simp [exceptIsOk] at hres

/-- A successful application of the decoder list yields exactly one decoded
value per raw argument. -/
theorem applyDecoders_ok_length :
    ∀ (ds : List (List Nat → Except DecodeErr DecodedArg))
      (args : List (List Nat)) (vs : List DecodedArg),
      applyDecoders ds args = .ok vs → vs.length = args.length := by
  intro ds args
  induction args generalizing ds with
  | nil =>
    intro vs h
    cases ds <;> simp only [applyDecoders] at h <;>
      cases h <;> rfl
  | cons a rest ih =>
    intro vs h
    cases ds with
    | nil => exact Except.noConfusion h
    | cons d ds =>
      simp only [applyDecoders] at h
      cases hda : d a with
      | error e => rw [hda] at h; cases h
      | ok v =>
        rw [hda] at h
        cases hrec : applyDecoders ds rest with
        | error e => rw [hrec] at h; cases h
        | ok ws =>
          rw [hrec] at h
          cases h
          simp [ih ds ws hrec]

/-- Decoders beyond the argument count are never consulted: the application
only reads the first `args.length` decoders. -/
theorem applyDecoders_take :
    ∀ (ds : List (List Nat → Except DecodeErr DecodedArg))
      (args : List (List Nat)),
      applyDecoders ds args =
        applyDecoders (ds.take args.length) args := by
  intro ds args
  induction args generalizing ds with
  | nil => cases ds <;> rfl
  | cons a rest ih =>
    cases ds with
    | nil => rfl
    | cons d ds =>
      simp only [List.length_cons, List.take_succ_cons, applyDecoders]
      rw [ih ds]

/-- The decoded-arguments component of the record produced by
decodeTransactionTx is exactly the registry decode of the raw arguments: it
reads nothing else from the transaction. -/
theorem decodeTransactionTx_args (tx : SimpleTransaction) (out : String)
    (fn : Option String) :
    ((decodeTransactionTx tx out fn).2).map DecodedTx.payloadArgs =
      decodedArgsFor fn tx.payload.args := by
  unfold decodeTransactionTx
  cases h : decodedArgsFor fn tx.payload.args with
  | error e => simp [Except.map]
  | ok args => simp [Except.map, buildDecodedTx]

/-- Claim C1 counterexample: the upgradePackage decoder list has three
decoders, yet decoding a single raw argument (a 32-byte address) succeeds
with one decoded value instead of failing with an ArgumentCountMismatch. -/
theorem claim1_counterexample :
    upgradePackageDecoders.length = 3 ∧
    decodedArgsFor (some "upgradePackage") [List.replicate 32 0] =
      .ok [.str (toHexString (List.replicate 32 0))] :=
  ⟨rfl, by decide⟩

/-- Claim C1 (amended): for a registered function, decode applies the
decoder list positionally; when the raw arguments outnumber the decoders the
call fails (with a TypeError from invoking a missing decoder, or an earlier
decoder failure — there is no ArgumentCountMismatch error), and when they
are fewer it does not fail on the count: the surplus decoders are silently
truncated and a success returns exactly one value per raw argument. -/
theorem claim1_amended_arity_behavior :
    ∀ (fn : String) (ds : List (List Nat → Except DecodeErr DecodedArg))
      (rawArgs : List (List Nat)),
      lookupDecoders fn = some ds →
      decodedArgsFor (some fn) rawArgs = applyDecoders ds rawArgs ∧
      (ds.length < rawArgs.length →
        exceptIsOk (applyDecoders ds rawArgs) = false) ∧
      (∀ vs, applyDecoders ds rawArgs = .ok vs →
        vs.length = rawArgs.length) ∧
      applyDecoders ds rawArgs =
        applyDecoders (ds.take rawArgs.length) rawArgs := by
  intro fn ds rawArgs hlook
  exact ⟨by simp [decodedArgsFor, hlook],
    applyDecoders_err_of_more_args ds rawArgs,
    applyDecoders_ok_length ds rawArgs,
    applyDecoders_take ds rawArgs⟩

/-- Claim C1 witness: four raw arguments against the three upgradePackage
decoders never succeed. -/
theorem claim1_witness :
    exceptIsOk (applyDecoders upgradePackageDecoders
      (List.replicate 4 [])) = false :=
  (claim1_amended_arity_behavior "upgradePackage" upgradePackageDecoders
    (List.replicate 4 []) rfl).2.1 (by decide)

/-- Claim C2: a threshold-mode build of the Authenticator fails whenever
some (index, signature) pair names an index beyond the declared member-key
list, and fails whenever fewer signatures are supplied than the declared
threshold. -/
theorem claim2_threshold_build_checks :
    ∀ (keys : List (List Nat)) (t : Nat) (pairs : List (Nat × List Nat)),
      ((∃ p ∈ pairs, keys.length < p.1) →
        exceptIsOk (buildAuthenticator (.thresholdKey keys t)
          (.threshold pairs)) = false) ∧
      (pairs.length < t →
        exceptIsOk (buildAuthenticator (.thresholdKey keys t)
          (.threshold pairs)) = false) := by
  intro keys t pairs
  constructor
  · rintro ⟨p, hp, hgt⟩
    have hany : pairs.any (fun p => keys.length ≤ p.1) = true :=
      List.any_eq_true.mpr ⟨p, hp, by simpa using Nat.le_of_lt hgt⟩
    simp [buildAuthenticator, hany, exceptIsOk]
  · intro ht
    by_cases hany : pairs.any (fun p => keys.length ≤ p.1) = true
    · simp [buildAuthenticator, hany, exceptIsOk]
    · simp only [Bool.not_eq_true] at hany
      simp [buildAuthenticator, hany, ht, exceptIsOk]

/-- Claim C2 witness: two member keys, threshold three, one signature pair at
index five — the build fails. -/
theorem claim2_witness :
    exceptIsOk (buildAuthenticator
      (.thresholdKey [List.replicate 32 1, List.replicate 32 2] 3)
      (.threshold [(5, List.replicate 64 0)])) = false :=
  (claim2_threshold_build_checks [List.replicate 32 1, List.replicate 32 2] 3
    [(5, List.replicate 64 0)]).2 (by decide)

/-- Claim C3: with dryRun unset and the signature absent, executeTransaction
fails with MissingSignature and issues no network call at all. -/
theorem claim3_missing_signature :
    ∀ (client : AptosClient) (tx : SimpleTransaction) (pk : SignerIdentity),
      executeTransaction client tx pk none false =
        ([], .error .missingSignature) := by
  intro client tx pk
  rfl

/-- Claim C4: a dry run issues exactly one simulation request and never
submits or waits; a committed execution whose authenticator builds issues
exactly one submit followed by exactly one wait-for-inclusion and returns
the committed result. -/
theorem claim4_call_discipline :
    (∀ (client : AptosClient) (tx : SimpleTransaction) (pk : SignerIdentity)
       (sig : Option SignatureInput),
       executeTransaction client tx pk sig true =
         ([.simulate tx pk], .ok (.simulation client.simulateResult))) ∧
    (∀ (client : AptosClient) (tx : SimpleTransaction) (pk : SignerIdentity)
       (s : SignatureInput) (auth : Authenticator),
       buildAuthenticator pk s = .ok auth →
       executeTransaction client tx pk (some s) false =
         ([.submit tx auth, .waitForInclusion client.submitHash],
          .ok (.committed client.waitResult))) := by
  constructor
  · intro client tx pk sig; rfl
  · intro client tx pk s auth hauth
    simp [executeTransaction, hauth]

/-- Claim C4 witness: a single-key committed execution with a 32-byte key
and 64-byte signature submits once and waits once. -/
theorem claim4_witness :
    executeTransaction sampleClient sampleTx
      (.singleKey (List.replicate 32 0))
      (some (.single (List.replicate 64 0))) false =
      ([.submit sampleTx
          (.singleKeyAuth (List.replicate 32 0) (List.replicate 64 0)),
        .waitForInclusion sampleClient.submitHash],
       .ok (.committed sampleClient.waitResult)) :=
  claim4_call_discipline.2 sampleClient sampleTx
    (.singleKey (List.replicate 32 0)) (.single (List.replicate 64 0))
    (.singleKeyAuth (List.replicate 32 0) (List.replicate 64 0)) (by decide)

/-- Claim C5: decoding a transaction whose three raw arguments encode a
32-byte address, a 100-byte vector and a five-element nested vector of
100-byte inner vectors, under the upgradePackage hint, yields the address
string, the hex string of the bytes and the five hex strings, in order. -/
theorem claim5_upgradePackage_scenario :
    ∀ (tx : SimpleTransaction) (out : String) (addr b : List Nat)
      (inners : List (List Nat)),
      addr.length = 32 → b.length = 100 → inners.length = 5 →
      (∀ v ∈ inners, v.length = 100) →
      tx.payload.args =
        [addr, encodeBytes b, encodeVector encodeBytes inners] →
      ((decodeTransactionTx tx out (some "upgradePackage")).2).map
          DecodedTx.payloadArgs =
        .ok [.str (toHexString addr), .str (toHexString b),
          .strList (inners.map toHexString)] := by
  intro tx out addr b inners haddr hb hinlen hin hargs
  rw [decodeTransactionTx_args, hargs]
  have h1 : decodeAddressArg addr = .ok (.str (toHexString addr)) := by
    have hr := readBytes_exact addr []
    rw [List.append_nil, haddr] at hr
    simp [decodeAddressArg, hr, Except.map]
  have h2 : decodeVectorU8Arg (encodeBytes b) =
      .ok (.str (toHexString b)) := by
    have hr := readByteVector_encodeBytes b [] (by rw [hb]; norm_num)
    rw [List.append_nil] at hr
    simp [decodeVectorU8Arg, hr, Except.map]
  have h3 : decodeVectorVectorU8Arg (encodeVector encodeBytes inners) =
      .ok (.strList (inners.map toHexString)) := by
    have hv : ∀ v ∈ inners, ∀ r,
        readByteVector (encodeBytes v ++ r) = .ok (v, r) :=
      fun v hvm r =>
        readByteVector_encodeBytes v r (by rw [hin v hvm]; norm_num)
    have hr := decodeVector_encodeVector encodeBytes readByteVector inners []
      (by rw [hinlen]; norm_num) hv
    rw [List.append_nil] at hr
    simp [decodeVectorVectorU8Arg, twoLevelDeserialize, hr, Except.map]
  have hlook : lookupDecoders "upgradePackage" =
      some upgradePackageDecoders := rfl
  simp [decodedArgsFor, hlook, upgradePackageDecoders, applyDecoders,
    h1, h2, h3]

/-- Claim C5 witness: all-zero address, 100 zero bytes and five inner
vectors of 100 zero bytes decode to the expected strings. -/
theorem claim5_witness :
    ((decodeTransactionTx
        { sampleTx with payload :=
            { sampleTx.payload with args :=
                [List.replicate 32 0, encodeBytes (List.replicate 100 0),
                 encodeVector encodeBytes
                   (List.replicate 5 (List.replicate 100 0))] } }
        "out.json" (some "upgradePackage")).2).map DecodedTx.payloadArgs =
      .ok [.str (toHexString (List.replicate 32 0)),
        .str (toHexString (List.replicate 100 0)),
        .strList ((List.replicate 5 (List.replicate 100 0)).map
          toHexString)] :=
  claim5_upgradePackage_scenario _ "out.json" (List.replicate 32 0)
    (List.replicate 100 0) (List.replicate 5 (List.replicate 100 0))
    (by decide) (by decide) (by decide) (by decide) rfl

/-- Claim C6: when no function name is supplied, or the supplied name is not
in the registry, every raw argument is returned in order as the hex string
of its bytes. -/
theorem claim6_unregistered_hex_passthrough :
    ∀ (tx : SimpleTransaction) (out : String) (fn : Option String),
      (∀ s, fn = some s → lookupDecoders s = none) →
      ((decodeTransactionTx tx out fn).2).map DecodedTx.payloadArgs =
        .ok (tx.payload.args.map (fun a => .str (toHexString a))) := by
  intro tx out fn h
  rw [decodeTransactionTx_args]
  cases fn with
  | none => rfl
  | some s => simp [decodedArgsFor, h s rfl]

/-- Claim C6 witness: an unregistered name yields the hex passthrough on a
concrete transaction. -/
theorem claim6_witness :
    ((decodeTransactionTx sampleTx "out.json" (some "transfer")).2).map
        DecodedTx.payloadArgs =
      .ok (sampleTx.payload.args.map (fun a => .str (toHexString a))) :=
  claim6_unregistered_hex_passthrough sampleTx "out.json" (some "transfer")
    (fun s hs => by cases hs; rfl)

/-- Claim C7: decoding the encoding of any byte-string sequence with the
nested vector codec recovers the sequence (lengths within 32 bits), and a
zero length decodes to the empty sequence, never an absent value. -/
theorem claim7_vector_roundtrip :
    (∀ xs : List (List Nat), xs.length < 2 ^ 32 →
       (∀ b ∈ xs, b.length < 2 ^ 32) →
       decodeVector readByteVector (encodeVector encodeBytes xs) =
         .ok (xs, [])) ∧
    (∀ bs : List Nat,
       decodeVector readByteVector (0 :: bs) = .ok ([], bs)) := by
  constructor
  · intro xs hlen hin
    have h := decodeVector_encodeVector encodeBytes readByteVector xs [] hlen
      (fun x hx r => readByteVector_encodeBytes x r (hin x hx))
    simpa using h
  · intro bs; rfl

/-- Claim C7 witness: a concrete three-element sequence, one element empty,
round trips. -/
theorem claim7_witness :
    decodeVector readByteVector
      (encodeVector encodeBytes [[1, 2], [], [3]]) =
      .ok ([[1, 2], [], [3]], []) :=
  claim7_vector_roundtrip.1 [[1, 2], [], [3]] (by decide) (by decide)

/-- Claim C8: decodeTransaction performs its single output write exactly
when the whole record was decoded, and a failure at any stage performs no
write at all. -/
theorem claim8_write_only_on_success :
    ∀ (txBytes : List Nat) (out : String) (fn : Option String),
      (decodeTransaction txBytes out fn).1 =
        match (decodeTransaction txBytes out fn).2 with
        | .error _ => []
        | .ok d => [{ path := out, content := d }] := by
  intro txBytes out fn
  cases hdes : deserializeSimpleTransaction txBytes with
  | error e => simp [decodeTransaction, hdes]
  | ok tx =>
    cases hargs : decodedArgsFor fn tx.payload.args with
    | error e => simp [decodeTransaction, decodeTransactionTx, hdes, hargs]
    | ok args => simp [decodeTransaction, decodeTransactionTx, hdes, hargs]

/-- Claim C9: the dry-run path never reads the signature argument: any two
signature values, including an absent one, give identical runs. -/
theorem claim9_dry_run_ignores_signature :
    ∀ (client : AptosClient) (tx : SimpleTransaction) (pk : SignerIdentity)
      (sig1 sig2 : Option SignatureInput),
      executeTransaction client tx pk sig1 true =
        executeTransaction client tx pk sig2 true := by
  intro client tx pk sig1 sig2
  rfl

/-- Claim C10: decoder selection depends only on the caller-supplied
function-name hint and the raw argument bytes, never on the payload identity:
the decoded-arguments component equals the registry decode of the raw
arguments, the upgradePackage hint always applies the upgradePackage decoder
list, and an absent hint always takes the hex passthrough. -/
theorem claim10_hint_only_selection :
    (∀ (tx : SimpleTransaction) (out : String) (fn : Option String),
       ((decodeTransactionTx tx out fn).2).map DecodedTx.payloadArgs =
         decodedArgsFor fn tx.payload.args) ∧
    (∀ rawArgs : List (List Nat),
       decodedArgsFor (some "upgradePackage") rawArgs =
         applyDecoders upgradePackageDecoders rawArgs) ∧
    (∀ rawArgs : List (List Nat),
       decodedArgsFor none rawArgs =
         .ok (rawArgs.map (fun a => .str (toHexString a)))) := by
  refine ⟨decodeTransactionTx_args, fun rawArgs => rfl, fun rawArgs => rfl⟩

end StablecoinAptos


